import Mathlib

/-!
# Verification of the makdm-backend autopay / proration core

Shallow embedding of the billing core of `src/server.js`:

* `prorateCents`        — the proration calculator (server.js lines 10-20);
* `nextFirst`           — the billing date advancer (server.js lines 23-32);
* `nextMonthFirst`      — the runner's copy of the advancer (server.js lines 375-379);
* `runAutopayForDate`   — the autopay batch runner (server.js lines 381-455);
* `postLease`           — the lease-creation handler `POST /api/leases` (lines 183-208).

Conventions of the embedding:

* Calendar dates are `Date` records (year / 1-based month / 1-based day).
  The JS code parses `"YYYY-MM-DD" + "T00:00:00(Z)"` strings and reads the
  UTC fields back; with the server clock in UTC (the policy documented at
  server.js line 12, "we use UTC-midnight") the round trip is the identity,
  so parsing is not modelled.
* JS `number` arithmetic on cent amounts is modelled exactly over `Nat`/`Int`/`ℚ`;
  all products involved stay far below `2^53`, where JS doubles are exact.
* The Supabase store is a `DB` record of in-memory tables; the Square gateway
  and the fallibility of individual store writes are an `Env` of oracles, so
  that one run of the batch loop is a pure function `DB → DB × RunOutput`.
-/

/-- A calendar date: `month` is 1-based (1 = January), `day` is 1-based. -/
structure Date where
  year : Nat
  month : Nat
  day : Nat
deriving DecidableEq

/-- Gregorian leap-year rule, as implemented by the JS `Date` object. -/
def isLeapYear (y : Nat) : Bool :=
  (y % 4 == 0 && y % 100 != 0) || (y % 400 == 0)

/-- Number of days of month `m` of year `y`.  The JS code computes this as
`new Date(Date.UTC(y, m + 1, 0)).getUTCDate()` (server.js line 14): day 0 of
the following month, i.e. the last day of month `m`, per the Gregorian
calendar that `Date.UTC` implements. -/
def daysInMonth (y m : Nat) : Nat :=
  if m = 2 then (if isLeapYear y then 29 else 28)
  else if m = 4 ∨ m = 6 ∨ m = 9 ∨ m = 11 then 30
  else 31

/-- JavaScript `Math.round(num / den)` for a nonnegative integer `num` and a
positive integer `den`: round-half-up, i.e. `⌊num/den + 1/2⌋`, which over the
integers is `(2*num + den) / (2*den)` (the two agree by `mathRound_eq_floor`
below; the JS double arithmetic is exact at the magnitudes involved). -/
def mathRound (num den : Nat) : Nat := (2 * num + den) / (2 * den)

/-- The proration calculator `prorateCents(startDateISO, monthlyCents)`
(server.js lines 10-20).  Charges the full month when the start day is the
1st, otherwise `Math.round(monthlyCents * remainingDays / daysInMonth)` with
the start day itself billed. -/
def prorateCents (startDate : Date) (monthlyCents : Nat) : Nat :=
  let daysInM := daysInMonth startDate.year startDate.month
  let startDay := startDate.day
  if startDay ≤ 1 then monthlyCents
  else
    let remainingDays := daysInM - startDay + 1
    mathRound (monthlyCents * remainingDays) daysInM

/-- The date produced by `new Date(Date.UTC(y, mIdx, 1))` for a 0-based month
index `mIdx` (possibly ≥ 12): JS normalizes month overflow into the year. -/
def utcMonthFirst (y mIdx : Nat) : Date :=
  ⟨y + mIdx / 12, mIdx % 12 + 1, 1⟩

/-- The billing date advancer `nextFirst(startDateISO)` (server.js lines
23-32).  The JS function branches on `day === 1` but returns
`Date.UTC(y, m + 1, 1)` — the 1st of the next month — in both branches;
`m` is the 0-based month index, so `m + 1` is our 1-based `month`. -/
def nextFirst (d : Date) : Date :=
  if d.day = 1 then utcMonthFirst d.year d.month
  else utcMonthFirst d.year d.month

/-- The batch runner's date advancer `nextMonthFirst(iso)` (server.js lines
375-379).  A falsy argument falls back to the current system date
(`sysToday`); otherwise identical to `nextFirst`. -/
def nextMonthFirst (iso : Option Date) (sysToday : Date) : Date :=
  let d := iso.getD sysToday
  utcMonthFirst d.year d.month

/-- Zero-padding of a day/month number to two digits, as in ISO date strings. -/
def pad2 (n : Nat) : String :=
  if n < 10 then "0" ++ toString n else toString n

/-- The `YYYY-MM-DD` rendering of a date (`toISOString().slice(0,10)`). -/
def dateStr (d : Date) : String :=
  toString d.year ++ "-" ++ pad2 d.month ++ "-" ++ pad2 d.day

example : prorateCents ⟨2025, 3, 15⟩ 10000 = 5484 := by decide

example : nextFirst ⟨2025, 12, 15⟩ = ⟨2026, 1, 1⟩ := by decide

example : nextFirst ⟨2025, 3, 1⟩ = ⟨2025, 4, 1⟩ := by decide

example : prorateCents ⟨2025, 3, 1⟩ 10000 = 10000 := by decide

/-- The integer computation `mathRound` agrees with the real-number
specification of JavaScript `Math.round`: `⌊num/den + 1/2⌋`. -/
theorem mathRound_eq_floor (num den : Nat) (hden : 0 < den) :
    (mathRound num den : Int) = ⌊(num : ℚ) / (den : ℚ) + 1 / 2⌋ := by
  have hden' : ((den : ℚ)) ≠ 0 := by positivity
  have hq : (num : ℚ) / (den : ℚ) + 1 / 2
      = ((2 * num + den : Nat) : ℚ) / ((2 * den : Nat) : ℚ) := by
    push_cast
    field_simp
    ring
  rw [hq, Rat.floor_natCast_div_natCast]
  unfold mathRound
  push_cast [Int.ofNat_tdiv]
  rfl

/-!
## Data model of the batch runner

`Lease` and `Payment` mirror the columns of the `leases` and `payments`
tables that `runAutopayForDate` reads and writes (server.js lines 388-393,
421-427, 444-449).  `Env` packages the runner's collaborators: the
configuration flags (`supabase`/`square` being non-null), the system clock,
and oracles giving the outcome of the Square charge and of each per-lease
store write, so that one run is a pure function of the store state.
-/

/-- A row of the `leases` table, restricted to the columns selected by the
runner's query (server.js line 390). -/
structure Lease where
  id : Nat
  tenant_id : Nat
  unit_id : Nat
  rent_cents : Nat
  square_card_id : Option Nat
  next_due_date : Date
  autopay : Bool
deriving DecidableEq

/-- A row of the `payments` table (the payment ledger), as written by the
runner (server.js lines 421-427 and 444-449). -/
structure Payment where
  lease_id : Nat
  amount_cents : Nat
  square_payment_id : Option Nat
  status : String
  note : String
deriving DecidableEq

/-- One element of the runner's `results` array: `{lease_id, ok, payment_id,
next_due_date}` on success, `{lease_id, ok, error}` on failure (server.js
lines 438 and 441). -/
structure LeaseResult where
  lease_id : Nat
  ok : Bool
  payment_id : Option Nat
  next_due_date : Option Date
  error : Option String
deriving DecidableEq

/-- The runner's return value: either `{ error }` (configuration or fetch
failure, server.js lines 383 and 395) or `{ date, count, results }`
(server.js line 454). -/
inductive RunOutput where
  | failure (error : String)
  | success (date : Date) (count : Nat) (results : List LeaseResult)
deriving DecidableEq

/-- The list of per-lease results carried by a run output (empty for a
top-level failure). -/
def RunOutput.resultsList : RunOutput → List LeaseResult
  | .failure _ => []
  | .success _ _ rs => rs

/-- The persistent store visible to the runner, plus an instrumentation
field: `charges` records the lease ids for which a charge request was sent
to the external Square gateway (`square.paymentsApi.createPayment`,
server.js line 418), so that "no charge was issued" is statable. -/
structure DB where
  leases : List Lease
  payments : List Payment
  charges : List Nat
deriving DecidableEq

/-- The runner's collaborators and failure oracles:

* `supabaseConfigured` / `squareConfigured` — whether the `supabase` and
  `square` clients are non-null (server.js lines 44, 47, 382);
* `sysToday` — the system date `new Date().toISOString().slice(0,10)`;
* `fetchError` — outcome of the due-lease select (server.js line 395);
* `gateway` — outcome of the Square charge for a given lease id: the
  payment id `pay.result.payment.id`, or the thrown error's message
  (server.js lines 418, 440);
* `payInsertOk` / `failInsertOk` / `leaseUpdateOk` — whether the per-lease
  `payments` inserts and `leases` update succeed (lines 428, 450, 436). -/
structure Env where
  supabaseConfigured : Bool
  squareConfigured : Bool
  sysToday : Date
  fetchError : Option String
  gateway : Nat → Except String Nat
  payInsertOk : Nat → Bool
  failInsertOk : Nat → Bool
  leaseUpdateOk : Nat → Bool

/-- The due-lease query (server.js lines 388-393): `autopay = true`,
`next_due_date = today`, `square_card_id is not null`. -/
def selectDue (leases : List Lease) (today : Date) : List Lease :=
  leases.filter fun L =>
    L.autopay && decide (L.next_due_date = today) && L.square_card_id.isSome

/-- The paid ledger entry written on a successful charge (server.js lines
421-427). -/
def paidEntry (today : Date) (L : Lease) (payId : Nat) : Payment :=
  { lease_id := L.id
    amount_cents := L.rent_cents
    square_payment_id := some payId
    status := "paid"
    note := "autopay " ++ dateStr today }

/-- The failed ledger entry written on a gateway error (server.js lines
444-449): no transaction id, and the error message as the note. -/
def failedEntry (L : Lease) (msg : String) : Payment :=
  { lease_id := L.id
    amount_cents := L.rent_cents
    square_payment_id := none
    status := "failed"
    note := msg }

/-- The body of the runner's `for` loop for one lease `L` (server.js lines
399-451).  The only throwing operation inside the `try` is the Square charge
(the Supabase calls return `{data, error}` pairs); its outcome is
`env.gateway L.id`.  On success the paid entry is inserted (if that write
succeeds; a failed write is only logged, line 428), the due date is advanced
to `nextMonthFirst(L.next_due_date || today)` (if that write succeeds, line
436), and an `ok` result is pushed.  On a gateway error a failure result is
pushed and a failed entry is inserted best-effort (line 450). -/
def processLease (env : Env) (today : Date) (db : DB) (L : Lease) :
    DB × LeaseResult :=
  let db0 : DB := { db with charges := db.charges ++ [L.id] }
  match env.gateway L.id with
  | .ok payId =>
    let db1 : DB :=
      if env.payInsertOk L.id then
        { db0 with payments := db0.payments ++ [paidEntry today L payId] }
      else db0
    let next := nextMonthFirst (some L.next_due_date) env.sysToday
    let db2 : DB :=
      if env.leaseUpdateOk L.id then
        { db1 with leases := db1.leases.map fun l =>
            if l.id = L.id then { l with next_due_date := next } else l }
      else db1
    (db2, { lease_id := L.id, ok := true, payment_id := some payId,
            next_due_date := some next, error := none })
  | .error msg =>
    let db1 : DB :=
      if env.failInsertOk L.id then
        { db0 with payments := db0.payments ++ [failedEntry L msg] }
      else db0
    (db1, { lease_id := L.id, ok := false, payment_id := none,
            next_due_date := none, error := some msg })

/-- The runner's `for (const L of leases)` loop (server.js lines 398-452),
processing the selected leases in order and collecting one result each. -/
def runLoop (env : Env) (today : Date) : DB → List Lease → DB × List LeaseResult
  | db, [] => (db, [])
  | db, L :: rest =>
    let p := processLease env today db L
    let q := runLoop env today p.1 rest
    (q.1, p.2 :: q.2)

/-- The autopay batch runner `runAutopayForDate(runDate)` (server.js lines
381-455): abort with a single error if `supabase` or `square` is not
configured; resolve the as-of date (falling back to the system date);
abort if the due-lease fetch fails; otherwise process each selected lease
and return `{ date, count, results }`. -/
def runAutopayForDate (env : Env) (db : DB) (runDate : Option Date) :
    DB × RunOutput :=
  if env.supabaseConfigured && env.squareConfigured then
    let today := runDate.getD env.sysToday
    match env.fetchError with
    | some msg => (db, .failure msg)
    | none =>
      let sel := selectDue db.leases today
      let r := runLoop env today db sel
      (r.1, .success today r.2.length r.2)
  else
    (db, .failure "Backend not fully configured")

/-- The request body of `POST /api/leases` (server.js lines 185-190).
Fields absent from the JSON body are `none` / the documented defaults. -/
structure LeaseRequest where
  unit_id : Nat
  tenant_id : Nat
  start_date : Date
  rent_cents : Nat
  deposit_cents : Nat
  autopay : Bool
  square_card_id : Option Nat
  first_charge_cents : Option Nat
  next_due_date : Option Date
deriving DecidableEq

/-- The row inserted into `leases` by `POST /api/leases` (server.js lines
192-201). -/
structure LeaseRow where
  unit_id : Nat
  tenant_id : Nat
  start_date : Date
  rent_cents : Nat
  deposit_cents : Nat
  status : String
  autopay : Bool
  square_card_id : Option Nat
  billing_anchor_day : Nat
  next_due_date : Date
  first_charge_cents : Option Nat
deriving DecidableEq

/-- The lease record created by `POST /api/leases` (server.js lines
183-208).  `next_due_date = nextFirst(start_date)` is a destructuring
default (line 189): it applies only when the request body does not supply
`next_due_date`; a supplied value is inserted verbatim. -/
def postLease (req : LeaseRequest) : LeaseRow :=
  { unit_id := req.unit_id
    tenant_id := req.tenant_id
    start_date := req.start_date
    rent_cents := req.rent_cents
    deposit_cents := req.deposit_cents
    status := "active"
    autopay := req.autopay
    square_card_id := req.square_card_id
    billing_anchor_day := 1
    next_due_date := req.next_due_date.getD (nextFirst req.start_date)
    first_charge_cents := req.first_charge_cents }

/-!
## Derived characterizations of one loop iteration

The following definitions are not translations of further source code: they
package the net effect of `processLease` on each component of the state, and
are proved to coincide with it (`processLease_snd`, `runLoop_payments`,
`runLoop_leases`, ...) so that the claims can be stated and settled against
closed-form descriptions of a whole run.
-/

/-- Whether the Square charge for lease id `i` succeeds. -/
def gatewayOk (env : Env) (i : Nat) : Bool :=
  match env.gateway i with
  | .ok _ => true
  | .error _ => false

/-- Whether processing lease `L` advances its stored due date: the charge
succeeded and the `leases` update succeeded. -/
def advancesId (env : Env) (L : Lease) : Bool :=
  gatewayOk env L.id && env.leaseUpdateOk L.id

/-- The per-lease result pushed for lease `L`, as a function of the gateway
outcome alone. -/
def resultOf (env : Env) (L : Lease) : LeaseResult :=
  match env.gateway L.id with
  | .ok payId =>
    { lease_id := L.id, ok := true, payment_id := some payId,
      next_due_date := some (utcMonthFirst L.next_due_date.year L.next_due_date.month),
      error := none }
  | .error msg =>
    { lease_id := L.id, ok := false, payment_id := none,
      next_due_date := none, error := some msg }

/-- The ledger entries appended while processing lease `L` (one entry, or
none when the corresponding insert fails). -/
def leaseEntries (env : Env) (today : Date) (L : Lease) : List Payment :=
  match env.gateway L.id with
  | .ok payId => if env.payInsertOk L.id then [paidEntry today L payId] else []
  | .error msg => if env.failInsertOk L.id then [failedEntry L msg] else []

/-- The rewrite applied to the `leases` table when lease `L` is advanced. -/
def updOne (L : Lease) (l : Lease) : Lease :=
  if l.id = L.id then
    { l with next_due_date := utcMonthFirst L.next_due_date.year L.next_due_date.month }
  else l

/-- The cumulative rewrite of a stored lease `l` after processing the
selection `sel`: advanced exactly when some selected lease shares its id and
was successfully charged and updated. -/
def advanceLease (env : Env) (sel : List Lease) (l : Lease) : Lease :=
  match sel.find? (fun L => decide (L.id = l.id) && advancesId env L) with
  | some L =>
    { l with next_due_date := utcMonthFirst L.next_due_date.year L.next_due_date.month }
  | none => l

theorem nextFirst_eq_utc (d : Date) :
    nextFirst d = utcMonthFirst d.year d.month := by
  unfold nextFirst
  split <;> rfl

theorem nextMonthFirst_some (d fb : Date) :
    nextMonthFirst (some d) fb = utcMonthFirst d.year d.month := rfl

theorem processLease_snd (env : Env) (today : Date) (db : DB) (L : Lease) :
    (processLease env today db L).2 = resultOf env L := by
  unfold processLease resultOf
  cases env.gateway L.id <;> simp [nextMonthFirst_some]

theorem processLease_payments (env : Env) (today : Date) (db : DB) (L : Lease) :
    (processLease env today db L).1.payments
      = db.payments ++ leaseEntries env today L := by
  unfold processLease leaseEntries
  cases env.gateway L.id <;>
    by_cases hp : env.payInsertOk L.id <;>
    by_cases hf : env.failInsertOk L.id <;>
    by_cases hu : env.leaseUpdateOk L.id <;>
    simp [hp, hf, hu]

theorem processLease_charges (env : Env) (today : Date) (db : DB) (L : Lease) :
    (processLease env today db L).1.charges = db.charges ++ [L.id] := by
  unfold processLease
  cases env.gateway L.id <;>
    by_cases hp : env.payInsertOk L.id <;>
    by_cases hf : env.failInsertOk L.id <;>
    by_cases hu : env.leaseUpdateOk L.id <;>
    simp [hp, hf, hu]

theorem processLease_leases (env : Env) (today : Date) (db : DB) (L : Lease) :
    (processLease env today db L).1.leases
      = if advancesId env L then db.leases.map (updOne L) else db.leases := by
  unfold processLease advancesId gatewayOk updOne
  cases env.gateway L.id <;>
    by_cases hp : env.payInsertOk L.id <;>
    by_cases hu : env.leaseUpdateOk L.id <;>
    by_cases hf : env.failInsertOk L.id <;>
    simp [hp, hu, hf, nextMonthFirst_some]

theorem runLoop_results (env : Env) (today : Date) (db : DB) (ls : List Lease) :
    (runLoop env today db ls).2 = ls.map (resultOf env) := by
  induction ls generalizing db with
  | nil => rfl
  | cons L rest ih =>
    simp only [runLoop, List.map_cons]
    rw [processLease_snd, ih]

theorem runLoop_payments (env : Env) (today : Date) (db : DB) (ls : List Lease) :
    (runLoop env today db ls).1.payments
      = db.payments ++ ls.flatMap (leaseEntries env today) := by
  induction ls generalizing db with
  | nil => simp [runLoop]
  | cons L rest ih =>
    simp only [runLoop, List.flatMap_cons]
    rw [ih, processLease_payments, List.append_assoc]

theorem runLoop_charges (env : Env) (today : Date) (db : DB) (ls : List Lease) :
    (runLoop env today db ls).1.charges
      = db.charges ++ ls.map (fun L => L.id) := by
  induction ls generalizing db with
  | nil => simp [runLoop]
  | cons L rest ih =>
    simp only [runLoop, List.map_cons]
    rw [ih, processLease_charges, List.append_assoc]
    rfl

theorem advanceLease_nil (env : Env) (l : Lease) : advanceLease env [] l = l := rfl

theorem updOne_id (L l : Lease) : (updOne L l).id = l.id := by
  unfold updOne
  split <;> rfl

theorem advanceLease_updOne (env : Env) (L : Lease) (rest : List Lease) (l : Lease)
    (hnotin : L.id ∉ rest.map (fun x => x.id)) (hadv : advancesId env L = true) :
    advanceLease env rest (updOne L l) = advanceLease env (L :: rest) l := by
  by_cases hid : l.id = L.id
  · have hfind : (L :: rest).find? (fun x => decide (x.id = l.id) && advancesId env x)
        = some L := by
      apply List.find?_cons_of_pos
      simp [hid, hadv]
    have hnone : rest.find?
        (fun x => decide (x.id = (updOne L l).id) && advancesId env x) = none := by
      rw [List.find?_eq_none]
      intro x hx
      simp only [updOne_id, Bool.and_eq_true, decide_eq_true_eq, not_and]
      intro hxid _
      apply hnotin
      have hmem : x.id ∈ rest.map (fun y => y.id) :=
        List.mem_map_of_mem (fun y => y.id) hx
      rwa [hxid, hid] at hmem
    unfold advanceLease
    rw [hfind, hnone]
    unfold updOne
    rw [if_pos hid]
  · have hfind : (L :: rest).find? (fun x => decide (x.id = l.id) && advancesId env x)
        = rest.find? (fun x => decide (x.id = l.id) && advancesId env x) := by
      apply List.find?_cons_of_neg
      simp
      intro h
      exact absurd h.symm hid
    have hupd : updOne L l = l := by
      unfold updOne
      rw [if_neg hid]
    unfold advanceLease
    rw [hfind, hupd]

theorem advanceLease_skip (env : Env) (L : Lease) (rest : List Lease) (l : Lease)
    (hadv : advancesId env L = false) :
    advanceLease env rest l = advanceLease env (L :: rest) l := by
  unfold advanceLease
  have hfind : (L :: rest).find? (fun x => decide (x.id = l.id) && advancesId env x)
      = rest.find? (fun x => decide (x.id = l.id) && advancesId env x) := by
    apply List.find?_cons_of_neg
    simp [hadv]
  rw [hfind]

theorem runLoop_leases (env : Env) (today : Date) (db : DB) (ls : List Lease)
    (h : (ls.map (fun L => L.id)).Nodup) :
    (runLoop env today db ls).1.leases = db.leases.map (advanceLease env ls) := by
  induction ls generalizing db with
  | nil =>
    simp only [runLoop]
    symm
    calc db.leases.map (advanceLease env [])
        = db.leases.map id := List.map_congr_left fun l _ => advanceLease_nil env l
      _ = db.leases := List.map_id _
  | cons L rest ih =>
    simp only [List.map_cons, List.nodup_cons, List.mem_map] at h
    have h2 : L.id ∉ rest.map (fun x => x.id) := by
      simpa using h.1
    simp only [runLoop]
    rw [ih _ h.2, processLease_leases]
    by_cases hadv : advancesId env L = true
    · rw [if_pos hadv, List.map_map]
      exact List.map_congr_left fun l _ => advanceLease_updOne env L rest l h2 hadv
    · rw [if_neg hadv]
      exact List.map_congr_left fun l _ =>
        advanceLease_skip env L rest l (by simpa using hadv)

theorem mem_selectDue (leases : List Lease) (D : Date) (L : Lease) :
    L ∈ selectDue leases D ↔
      L ∈ leases ∧ L.autopay = true ∧ L.next_due_date = D ∧
        L.square_card_id.isSome = true := by
  unfold selectDue
  simp [List.mem_filter, and_assoc]

theorem selectDue_eq_nil (leases : List Lease) (D : Date)
    (h : ∀ l ∈ leases, ¬(l.autopay = true ∧ l.next_due_date = D ∧
        l.square_card_id.isSome = true)) :
    selectDue leases D = [] := by
  unfold selectDue
  rw [List.filter_eq_nil_iff]
  intro a ha
  simp only [Bool.and_eq_true, decide_eq_true_eq]
  intro hc
  exact h a ha ⟨hc.1.1, hc.1.2, hc.2⟩

theorem selectDue_nodup (leases : List Lease) (D : Date)
    (h : (leases.map (fun l => l.id)).Nodup) :
    ((selectDue leases D).map (fun l => l.id)).Nodup :=
  h.sublist ((List.filter_sublist _).map _)

theorem leaseId_inj {leases : List Lease}
    (h : (leases.map (fun l => l.id)).Nodup) {a b : Lease}
    (ha : a ∈ leases) (hb : b ∈ leases) (hab : a.id = b.id) : a = b :=
  List.inj_on_of_nodup_map h ha hb hab

/-- Closed form of a configured, fetch-succeeding run: the store is rewritten
by `advanceLease`, the new ledger entries are the per-lease `leaseEntries`,
one charge is issued per selected lease, and the output lists one
`resultOf` per selected lease in selection order. -/
theorem runAutopay_run (env : Env) (db : DB) (D : Date)
    (hsb : env.supabaseConfigured = true) (hsq : env.squareConfigured = true)
    (hfetch : env.fetchError = none)
    (hnodup : (db.leases.map (fun l => l.id)).Nodup) :
    runAutopayForDate env db (some D)
      = ({ leases := db.leases.map (advanceLease env (selectDue db.leases D)),
           payments := db.payments
             ++ (selectDue db.leases D).flatMap (leaseEntries env D),
           charges := db.charges ++ (selectDue db.leases D).map (fun L => L.id) },
         .success D (selectDue db.leases D).length
           ((selectDue db.leases D).map (resultOf env))) := by
  have hseln : ((selectDue db.leases D).map (fun l => l.id)).Nodup :=
    selectDue_nodup db.leases D hnodup
  unfold runAutopayForDate
  rw [hsb, hsq, hfetch]
  simp only [Bool.and_self, if_true, Option.getD_some]
  have h1 : (runLoop env D db (selectDue db.leases D)).1
      = { leases := db.leases.map (advanceLease env (selectDue db.leases D)),
          payments := db.payments
            ++ (selectDue db.leases D).flatMap (leaseEntries env D),
          charges := db.charges ++ (selectDue db.leases D).map (fun L => L.id) } := by
    have he : (runLoop env D db (selectDue db.leases D)).1
        = { leases := (runLoop env D db (selectDue db.leases D)).1.leases,
            payments := (runLoop env D db (selectDue db.leases D)).1.payments,
            charges := (runLoop env D db (selectDue db.leases D)).1.charges } := rfl
    rw [he, runLoop_leases env D db _ hseln, runLoop_payments, runLoop_charges]
  have h2 : (runLoop env D db (selectDue db.leases D)).2
      = (selectDue db.leases D).map (resultOf env) :=
    runLoop_results env D db _
  rw [h1, h2, List.length_map]

theorem leaseEntries_lease_id (env : Env) (today : Date) (L : Lease)
    (p : Payment) (hp : p ∈ leaseEntries env today L) : p.lease_id = L.id := by
  unfold leaseEntries at hp
  cases hgw : env.gateway L.id <;> rw [hgw] at hp <;> split at hp <;>
    simp_all [paidEntry, failedEntry]

theorem flatMap_entries_filter_nil (env : Env) (today : Date)
    (ls : List Lease) (q : Nat) (hq : q ∉ ls.map (fun x => x.id)) :
    (ls.flatMap (leaseEntries env today)).filter
      (fun p => decide (p.lease_id = q)) = [] := by
  rw [List.filter_eq_nil_iff]
  intro p hp
  simp only [List.mem_flatMap] at hp
  obtain ⟨L, hL, hpL⟩ := hp
  rw [leaseEntries_lease_id env today L p hpL]
  simp only [decide_eq_true_eq]
  intro hLq
  exact hq (hLq ▸ List.mem_map_of_mem (fun x => x.id) hL)

theorem flatMap_entries_filter (env : Env) (today : Date)
    (ls : List Lease) (L : Lease)
    (hnd : (ls.map (fun x => x.id)).Nodup) (hL : L ∈ ls) :
    (ls.flatMap (leaseEntries env today)).filter
      (fun p => decide (p.lease_id = L.id)) = leaseEntries env today L := by
  induction ls with
  | nil => cases hL
  | cons M rest ih =>
    simp only [List.map_cons, List.nodup_cons, List.mem_map] at hnd
    rw [List.flatMap_cons, List.filter_append]
    rcases List.mem_cons.mp hL with rfl | hLrest
    · have hrest : (rest.flatMap (leaseEntries env today)).filter
          (fun p => decide (p.lease_id = L.id)) = [] := by
        apply flatMap_entries_filter_nil
        simpa using hnd.1
      rw [hrest, List.append_nil, List.filter_eq_self]
      intro p hp
      simp [leaseEntries_lease_id env today L p hp]
    · have hhead : (leaseEntries env today M).filter
          (fun p => decide (p.lease_id = L.id)) = [] := by
        rw [List.filter_eq_nil_iff]
        intro p hp
        rw [leaseEntries_lease_id env today M p hp]
        simp only [decide_eq_true_eq]
        intro hML
        exact hnd.1 ⟨L, hLrest, hML.symm⟩
      rw [hhead, List.nil_append]
      exact ih hnd.2 hLrest

theorem utcMonthFirst_ne_self (d : Date) :
    utcMonthFirst d.year d.month ≠ d := by
  cases d with
  | mk y m dy =>
    unfold utcMonthFirst
    simp only [ne_eq, Date.mk.injEq, not_and]
    intro hy hm
    omega

theorem resultOf_lease_id (env : Env) (L : Lease) :
    (resultOf env L).lease_id = L.id := by
  unfold resultOf
  cases env.gateway L.id <;> rfl

theorem find_advance_none (env : Env) (leases : List Lease) (D : Date) (l : Lease)
    (hnodup : (leases.map (fun x => x.id)).Nodup) (hl : l ∈ leases)
    (hnot : l ∉ selectDue leases D) :
    (selectDue leases D).find?
      (fun x => decide (x.id = l.id) && advancesId env x) = none := by
  rw [List.find?_eq_none]
  intro x hx
  simp only [Bool.and_eq_true, decide_eq_true_eq, not_and]
  intro hid _
  have hxdb : x ∈ leases := ((mem_selectDue leases D x).mp hx).1
  have hxl : x = l := leaseId_inj hnodup hxdb hl hid
  exact hnot (hxl ▸ hx)

theorem daysInMonth_pos (y m : Nat) : 0 < daysInMonth y m := by
  unfold daysInMonth
  split
  · split <;> norm_num
  · split <;> norm_num

/-!
## The claims
-/

/-- C5: `prorateCents` returns the monthly amount unchanged when the start
date is the 1st of its month, and otherwise the half-up rounding of
`monthly * (daysInMonth - startDay + 1) / daysInMonth`; in particular
`prorate("2025-03-15", 10000) = 5484`. -/
theorem prorate_formula (y m d M : Nat)
    (hd1 : 1 ≤ d) (hd2 : d ≤ daysInMonth y m) :
    (d = 1 → prorateCents ⟨y, m, d⟩ M = M) ∧
    (2 ≤ d → (prorateCents ⟨y, m, d⟩ M : Int)
        = ⌊(M * (daysInMonth y m - d + 1) : ℚ) / (daysInMonth y m : ℚ) + 1 / 2⌋) ∧
    prorateCents ⟨2025, 3, 15⟩ 10000 = 5484 := by
  refine ⟨?_, ?_, by decide⟩
  · intro h
    subst h
    simp [prorateCents]
  · intro h
    have hd : ¬ d ≤ 1 := by omega
    have hpos : 0 < daysInMonth y m := daysInMonth_pos y m
    unfold prorateCents
    simp only [if_neg hd]
    rw [mathRound_eq_floor _ _ hpos]
    have hcast : ((M * (daysInMonth y m - d + 1) : ℕ) : ℚ)
        = (M : ℚ) * ((daysInMonth y m : ℚ) - (d : ℚ) + 1) := by
      push_cast [Nat.cast_sub hd2]
      ring
    rw [hcast]

/-- Witness for C5 at the documented example 2025-03-15 / 10000. -/
theorem prorate_formula_witness :
    (1 ≤ 15 ∧ 15 ≤ daysInMonth 2025 3) ∧
      prorateCents ⟨2025, 3, 15⟩ 10000 = 5484 :=
  ⟨by decide, (prorate_formula 2025 3 15 10000 (by decide) (by decide)).2.2⟩

/-- C6: for every date with a valid month, `nextFirst` returns day 1 of the
calendar month immediately following (its linear month index increments by
exactly one, wrapping year boundaries), it ignores the day-of-month, the
documented example `nextFirst(2025-12-15) = 2026-01-01` holds, and the
runner's copy `nextMonthFirst` agrees with it on every present date. -/
theorem next_anchor_spec (d : Date) (hm : 1 ≤ d.month) :
    (nextFirst d).day = 1 ∧
    12 * (nextFirst d).year + ((nextFirst d).month - 1)
      = 12 * d.year + (d.month - 1) + 1 ∧
    (∀ e : Date, e.year = d.year → e.month = d.month → nextFirst e = nextFirst d) ∧
    nextFirst ⟨2025, 12, 15⟩ = ⟨2026, 1, 1⟩ ∧
    (∀ e fb : Date, nextMonthFirst (some e) fb = nextFirst e) := by
  refine ⟨?_, ?_, ?_, by decide, ?_⟩
  · rw [nextFirst_eq_utc]
    rfl
  · rw [nextFirst_eq_utc]
    unfold utcMonthFirst
    simp only
    omega
  · intro e hy hme
    rw [nextFirst_eq_utc, nextFirst_eq_utc, hy, hme]
  · intro e fb
    rw [nextMonthFirst_some, nextFirst_eq_utc]

/-- Witness for C6 at 2025-03-31. -/
theorem next_anchor_spec_witness :
    (1 ≤ (Date.mk 2025 3 31).month) ∧
      (nextFirst ⟨2025, 3, 31⟩).day = 1 ∧
      nextFirst ⟨2025, 12, 15⟩ = ⟨2026, 1, 1⟩ := by
  have h := next_anchor_spec ⟨2025, 3, 31⟩ (by decide)
  exact ⟨by decide, h.1, h.2.2.2.1⟩

/-- C7: when the Supabase store client or the Square gateway client is not
configured, the run returns the single top-level configuration error and the
store is completely untouched — no lease queried or changed, no ledger entry
written, no charge issued. -/
theorem config_error_atomic (env : Env) (db : DB) (runDate : Option Date)
    (h : env.supabaseConfigured = false ∨ env.squareConfigured = false) :
    runAutopayForDate env db runDate
      = (db, .failure "Backend not fully configured") := by
  unfold runAutopayForDate
  rcases h with h | h <;> rw [h] <;> simp

/-- A run environment with the Square client missing, for the C7 witness. -/
def envC7 : Env :=
  { supabaseConfigured := true
    squareConfigured := false
    sysToday := ⟨2025, 4, 1⟩
    fetchError := none
    gateway := fun _ => .error "unreachable"
    payInsertOk := fun _ => true
    failInsertOk := fun _ => true
    leaseUpdateOk := fun _ => true }

/-- A one-lease store, for the C7 witness. -/
def dbC7 : DB :=
  { leases := [{ id := 1, tenant_id := 1, unit_id := 1, rent_cents := 9900,
                 square_card_id := some 4, next_due_date := ⟨2025, 4, 1⟩,
                 autopay := true }]
    payments := []
    charges := [] }

/-- Witness for C7: with Square unconfigured the run is the config error and
the store is unchanged. -/
theorem config_error_atomic_witness :
    runAutopayForDate envC7 dbC7 (some ⟨2025, 4, 1⟩)
      = (dbC7, .failure "Backend not fully configured") :=
  config_error_atomic envC7 dbC7 (some ⟨2025, 4, 1⟩) (Or.inr rfl)

/-- C10: within a fixed month and for a fixed monthly amount, `prorateCents`
is monotonically non-increasing in the start day. -/
theorem prorate_monotone (y m M d1 d2 : Nat)
    (h1 : 1 ≤ d1) (h12 : d1 ≤ d2) (h2 : d2 ≤ daysInMonth y m) :
    prorateCents ⟨y, m, d2⟩ M ≤ prorateCents ⟨y, m, d1⟩ M := by
  have hpos : 0 < daysInMonth y m := daysInMonth_pos y m
  unfold prorateCents
  simp only
  by_cases hc1 : d1 ≤ 1
  · rw [if_pos hc1]
    by_cases hc2 : d2 ≤ 1
    · rw [if_pos hc2]
    · rw [if_neg hc2]
      unfold mathRound
      have hr : daysInMonth y m - d2 + 1 ≤ daysInMonth y m := by omega
      have hMr : M * (daysInMonth y m - d2 + 1) ≤ M * daysInMonth y m :=
        Nat.mul_le_mul_left M hr
      have hlt : 2 * (M * (daysInMonth y m - d2 + 1)) + daysInMonth y m
          < (M + 1) * (2 * daysInMonth y m) := by
        have hexp : (M + 1) * (2 * daysInMonth y m)
            = 2 * (M * daysInMonth y m) + 2 * daysInMonth y m := by ring
        omega
      have := (Nat.div_lt_iff_lt_mul (by omega :
        0 < 2 * daysInMonth y m)).mpr hlt
      omega
  · rw [if_neg hc1, if_neg (by omega : ¬ d2 ≤ 1)]
    unfold mathRound
    apply Nat.div_le_div_right
    have : M * (daysInMonth y m - d2 + 1) ≤ M * (daysInMonth y m - d1 + 1) :=
      Nat.mul_le_mul_left M (by omega)
    omega

/-- Witness for C10: starting on the 20th charges no more than on the 10th. -/
theorem prorate_monotone_witness :
    prorateCents ⟨2025, 3, 20⟩ 10000 ≤ prorateCents ⟨2025, 3, 10⟩ 10000 :=
  prorate_monotone 2025 3 10000 10 20 (by decide) (by decide) (by decide)

/-- A `POST /api/leases` body that supplies its own `next_due_date`
(a mid-month date), for the C9 counterexample. -/
def reqOverride : LeaseRequest :=
  { unit_id := 1, tenant_id := 2, start_date := ⟨2025, 3, 10⟩,
    rent_cents := 10000, deposit_cents := 0, autopay := true,
    square_card_id := none, first_charge_cents := none,
    next_due_date := some ⟨2025, 3, 15⟩ }

/-- C9 counterexample: `nextFirst(start_date)` is only a destructuring
default; a request that supplies `next_due_date` gets it stored verbatim, so
the created record's due date is neither `nextFirst(start_date)` nor the 1st
of a month. -/
theorem post_lease_counterexample :
    (postLease reqOverride).next_due_date = ⟨2025, 3, 15⟩ ∧
    (postLease reqOverride).next_due_date.day ≠ 1 ∧
    (postLease reqOverride).next_due_date ≠ nextFirst reqOverride.start_date := by
  decide

/-- C9 as amended: when the request body does not supply `next_due_date`,
the created lease's due date is `nextFirst(start_date)` and falls on day 1 of
a month. -/
theorem post_lease_default (req : LeaseRequest) (h : req.next_due_date = none) :
    (postLease req).next_due_date = nextFirst req.start_date ∧
    (postLease req).next_due_date.day = 1 := by
  have h1 : (postLease req).next_due_date = nextFirst req.start_date := by
    unfold postLease
    simp [h]
  refine ⟨h1, ?_⟩
  rw [h1, nextFirst_eq_utc]
  rfl

/-- A `POST /api/leases` body without `next_due_date`, for the C9 witness. -/
def reqDefault : LeaseRequest :=
  { unit_id := 1, tenant_id := 2, start_date := ⟨2025, 3, 10⟩,
    rent_cents := 10000, deposit_cents := 0, autopay := true,
    square_card_id := none, first_charge_cents := none,
    next_due_date := none }

/-- Witness for the amended C9. -/
theorem post_lease_default_witness :
    (postLease reqDefault).next_due_date = nextFirst reqDefault.start_date ∧
    (postLease reqDefault).next_due_date.day = 1 :=
  post_lease_default reqDefault rfl

/-- An environment whose gateway charges succeed but whose `payments` insert
always fails, for the C8 counterexample. -/
def envInsFail : Env :=
  { supabaseConfigured := true
    squareConfigured := true
    sysToday := ⟨2025, 4, 1⟩
    fetchError := none
    gateway := fun _ => .ok 77
    payInsertOk := fun _ => false
    failInsertOk := fun _ => true
    leaseUpdateOk := fun _ => true }

/-- A one-lease store due on 2025-04-01, for the C8 counterexample. -/
def dbInsFail : DB :=
  { leases := [{ id := 1, tenant_id := 1, unit_id := 1, rent_cents := 10000,
                 square_card_id := some 5, next_due_date := ⟨2025, 4, 1⟩,
                 autopay := true }]
    payments := []
    charges := [] }

/-- C8 counterexample: the charge succeeds, the ledger insert fails (no
entry is recorded), and yet the per-lease result is an unqualified success —
`ok = true` with no error marking — contradicting "marked failed-to-record
rather than reported as an unqualified success".  The code only logs the
insert error (server.js line 428) and still pushes the `ok` result. -/
theorem store_error_counterexample :
    envInsFail.payInsertOk 1 = false ∧
    (runAutopayForDate envInsFail dbInsFail (some ⟨2025, 4, 1⟩)).2
      = .success ⟨2025, 4, 1⟩ 1
          [{ lease_id := 1, ok := true, payment_id := some 77,
             next_due_date := some ⟨2025, 5, 1⟩, error := none }] ∧
    (runAutopayForDate envInsFail dbInsFail (some ⟨2025, 4, 1⟩)).1.payments
      = [] := by
  decide

/-- C8 as amended: when the gateway charge succeeds but the subsequent
ledger insert fails, the run does not crash — it still returns a full result
list — but the store error is only logged: no ledger entry is appended for
that lease and its per-lease result still reports `ok` with the payment id
and new due date (it is not marked failed-to-record). -/
theorem store_error_result_still_ok (env : Env) (db : DB) (D : Date)
    (L : Lease) (pid : Nat)
    (hsb : env.supabaseConfigured = true) (hsq : env.squareConfigured = true)
    (hfetch : env.fetchError = none)
    (hnodup : (db.leases.map (fun l => l.id)).Nodup)
    (hL : L ∈ selectDue db.leases D)
    (hgw : env.gateway L.id = .ok pid)
    (hins : env.payInsertOk L.id = false) :
    (runAutopayForDate env db (some D)).2
      = .success D (selectDue db.leases D).length
          ((selectDue db.leases D).map (resultOf env)) ∧
    resultOf env L
      = { lease_id := L.id, ok := true, payment_id := some pid,
          next_due_date := some (nextFirst L.next_due_date), error := none } ∧
    ∀ p ∈ (runAutopayForDate env db (some D)).1.payments,
      p ∈ db.payments ∨ p.lease_id ≠ L.id := by
  rw [runAutopay_run env db D hsb hsq hfetch hnodup]
  refine ⟨rfl, ?_, ?_⟩
  · unfold resultOf
    rw [hgw, nextFirst_eq_utc]
  · intro p hp
    rcases List.mem_append.mp hp with hold | hnew
    · exact Or.inl hold
    · right
      simp only [List.mem_flatMap] at hnew
      obtain ⟨L', hL', hpL'⟩ := hnew
      rw [leaseEntries_lease_id env D L' p hpL']
      intro hideq
      have hL'db : L' ∈ db.leases := ((mem_selectDue db.leases D L').mp hL').1
      have hLdb : L ∈ db.leases := ((mem_selectDue db.leases D L).mp hL).1
      have : L' = L := leaseId_inj hnodup hL'db hLdb hideq
      subst this
      have : leaseEntries env D L' = [] := by
        unfold leaseEntries
        rw [hgw]
        simp [hins]
      rw [this] at hpL'
      cases hpL'

/-- Witness for the amended C8: binder-free consequences at the concrete
insert-failure scenario. -/
theorem store_error_result_still_ok_witness :
    (runAutopayForDate envInsFail dbInsFail (some ⟨2025, 4, 1⟩)).2
      = .success ⟨2025, 4, 1⟩
          (selectDue dbInsFail.leases ⟨2025, 4, 1⟩).length
          ((selectDue dbInsFail.leases ⟨2025, 4, 1⟩).map (resultOf envInsFail)) ∧
    resultOf envInsFail
        { id := 1, tenant_id := 1, unit_id := 1, rent_cents := 10000,
          square_card_id := some 5, next_due_date := ⟨2025, 4, 1⟩,
          autopay := true }
      = { lease_id := 1, ok := true, payment_id := some 77,
          next_due_date := some (nextFirst ⟨2025, 4, 1⟩), error := none } := by
  have h := store_error_result_still_ok envInsFail dbInsFail ⟨2025, 4, 1⟩
    { id := 1, tenant_id := 1, unit_id := 1, rent_cents := 10000,
      square_card_id := some 5, next_due_date := ⟨2025, 4, 1⟩, autopay := true }
    77 rfl rfl rfl (by decide) (by decide) rfl rfl
  exact ⟨h.1, h.2.1⟩

/-- C1: in a configured run, the output lists exactly one result per
selected lease in selection order (ok or failed — the loop never aborts),
and for every selected lease whose gateway charge fails: its result reports
the failure with the error message, a `failed` ledger entry carrying that
human-readable reason is appended, and its stored due date is unchanged. -/
theorem autopay_partial_failure_isolation (env : Env) (db : DB) (D : Date)
    (hsb : env.supabaseConfigured = true) (hsq : env.squareConfigured = true)
    (hfetch : env.fetchError = none)
    (hnodup : (db.leases.map (fun l => l.id)).Nodup)
    (hfail : ∀ i, env.failInsertOk i = true) :
    (runAutopayForDate env db (some D)).2
      = .success D (selectDue db.leases D).length
          ((selectDue db.leases D).map (resultOf env)) ∧
    ∀ L ∈ selectDue db.leases D, ∀ msg, env.gateway L.id = .error msg →
      resultOf env L = { lease_id := L.id, ok := false, payment_id := none,
                         next_due_date := none, error := some msg } ∧
      failedEntry L msg ∈ (runAutopayForDate env db (some D)).1.payments ∧
      ∃ l ∈ (runAutopayForDate env db (some D)).1.leases,
        l.id = L.id ∧ l.next_due_date = L.next_due_date := by
  have hseln := selectDue_nodup db.leases D hnodup
  rw [runAutopay_run env db D hsb hsq hfetch hnodup]
  refine ⟨rfl, ?_⟩
  intro L hL msg hgw
  have hfind : (selectDue db.leases D).find?
      (fun x => decide (x.id = L.id) && advancesId env x) = none := by
    rw [List.find?_eq_none]
    intro x hx
    simp only [Bool.and_eq_true, decide_eq_true_eq, not_and]
    intro hid hadv
    have hxL : x = L := leaseId_inj hseln hx hL hid
    subst hxL
    unfold advancesId gatewayOk at hadv
    rw [hgw] at hadv
    simp at hadv
  refine ⟨?_, ?_, ?_⟩
  · unfold resultOf
    rw [hgw]
  · simp only [List.mem_append]
    right
    rw [List.mem_flatMap]
    refine ⟨L, hL, ?_⟩
    unfold leaseEntries
    rw [hgw]
    simp [hfail L.id]
  · refine ⟨advanceLease env (selectDue db.leases D) L,
      List.mem_map_of_mem _ (((mem_selectDue db.leases D L).mp hL).1), ?_, ?_⟩
    · unfold advanceLease
      rw [hfind]
    · unfold advanceLease
      rw [hfind]

/-- C2: in a configured run, for every selected lease whose charge succeeds
(and whose store writes succeed): exactly one new ledger entry is appended
for it — the `paid` entry with the gateway transaction id and the rent
amount — its stored due date is advanced to `nextFirst` of its previous due
date, and its per-lease result reports ok with the payment id and the new
due date. -/
theorem autopay_success_records_and_advances (env : Env) (db : DB) (D : Date)
    (L : Lease) (pid : Nat)
    (hsb : env.supabaseConfigured = true) (hsq : env.squareConfigured = true)
    (hfetch : env.fetchError = none)
    (hnodup : (db.leases.map (fun l => l.id)).Nodup)
    (hL : L ∈ selectDue db.leases D) (hgw : env.gateway L.id = .ok pid)
    (hins : env.payInsertOk L.id = true) (hupd : env.leaseUpdateOk L.id = true) :
    ((runAutopayForDate env db (some D)).1.payments.drop
        db.payments.length).filter (fun p => decide (p.lease_id = L.id))
      = [paidEntry D L pid] ∧
    (∃ l ∈ (runAutopayForDate env db (some D)).1.leases,
        l.id = L.id ∧ l.next_due_date = nextFirst L.next_due_date) ∧
    (runAutopayForDate env db (some D)).2
      = .success D (selectDue db.leases D).length
          ((selectDue db.leases D).map (resultOf env)) ∧
    resultOf env L = { lease_id := L.id, ok := true, payment_id := some pid,
                       next_due_date := some (nextFirst L.next_due_date),
                       error := none } := by
  have hseln := selectDue_nodup db.leases D hnodup
  rw [runAutopay_run env db D hsb hsq hfetch hnodup]
  have hpred : (fun x => decide (x.id = L.id) && advancesId env x) L = true := by
    simp [advancesId, gatewayOk, hgw, hupd]
  have hisSome : ((selectDue db.leases D).find?
      (fun x => decide (x.id = L.id) && advancesId env x)).isSome := by
    rw [List.find?_isSome]
    exact ⟨L, hL, hpred⟩
  obtain ⟨x, hfind⟩ := Option.isSome_iff_exists.mp hisSome
  have hxid : x.id = L.id := by
    have := List.find?_some hfind
    simp only [Bool.and_eq_true, decide_eq_true_eq] at this
    exact this.1
  have hxL : x = L :=
    leaseId_inj hseln (List.mem_of_find?_eq_some hfind) hL hxid
  refine ⟨?_, ?_, rfl, ?_⟩
  · simp only [List.drop_left]
    rw [flatMap_entries_filter env D _ L hseln hL]
    unfold leaseEntries
    rw [hgw]
    simp [hins]
  · refine ⟨advanceLease env (selectDue db.leases D) L,
      List.mem_map_of_mem _ (((mem_selectDue db.leases D L).mp hL).1), ?_, ?_⟩
    · unfold advanceLease
      rw [hfind]
    · unfold advanceLease
      rw [hfind, hxL, nextFirst_eq_utc]
  · unfold resultOf
    rw [hgw, nextFirst_eq_utc]

/-- C4: in a configured run, the charges issued are exactly one per selected
lease and the results are exactly one per selected lease; a lease is
selected iff it is stored with `autopay = true`, `next_due_date = D` and a
non-null saved card; and every stored lease failing that predicate gets no
gateway charge, no new ledger entry, no result, and keeps its record
unchanged in the store. -/
theorem autopay_selection_exactness (env : Env) (db : DB) (D : Date)
    (hsb : env.supabaseConfigured = true) (hsq : env.squareConfigured = true)
    (hfetch : env.fetchError = none)
    (hnodup : (db.leases.map (fun l => l.id)).Nodup) :
    (runAutopayForDate env db (some D)).1.charges.drop db.charges.length
      = (selectDue db.leases D).map (fun l => l.id) ∧
    (runAutopayForDate env db (some D)).2.resultsList
      = (selectDue db.leases D).map (resultOf env) ∧
    (∀ L, L ∈ selectDue db.leases D ↔
      L ∈ db.leases ∧ L.autopay = true ∧ L.next_due_date = D ∧
        L.square_card_id.isSome = true) ∧
    ∀ l ∈ db.leases,
      ¬(l.autopay = true ∧ l.next_due_date = D ∧
          l.square_card_id.isSome = true) →
      l.id ∉ (runAutopayForDate env db (some D)).1.charges.drop
          db.charges.length ∧
      (∀ p ∈ (runAutopayForDate env db (some D)).1.payments.drop
          db.payments.length, p.lease_id ≠ l.id) ∧
      (∀ r ∈ (runAutopayForDate env db (some D)).2.resultsList,
          r.lease_id ≠ l.id) ∧
      l ∈ (runAutopayForDate env db (some D)).1.leases := by
  rw [runAutopay_run env db D hsb hsq hfetch hnodup]
  refine ⟨?_, rfl, fun L => mem_selectDue db.leases D L, ?_⟩
  · simp only [List.drop_left]
  · intro l hl hnotsel
    have hlsel : l ∉ selectDue db.leases D := by
      intro hmem
      exact hnotsel ((mem_selectDue db.leases D l).mp hmem).2
    refine ⟨?_, ?_, ?_, ?_⟩
    · simp only [List.drop_left]
      intro hmem
      obtain ⟨x, hxsel, hxid⟩ := List.mem_map.mp hmem
      have hxdb : x ∈ db.leases := ((mem_selectDue db.leases D x).mp hxsel).1
      have hxl : x = l := leaseId_inj hnodup hxdb hl hxid
      exact hlsel (hxl ▸ hxsel)
    · simp only [List.drop_left]
      intro p hp
      obtain ⟨L', hL', hpL'⟩ := List.mem_flatMap.mp hp
      rw [leaseEntries_lease_id env D L' p hpL']
      intro hid
      have hL'db : L' ∈ db.leases := ((mem_selectDue db.leases D L').mp hL').1
      have hL'l : L' = l := leaseId_inj hnodup hL'db hl hid
      exact hlsel (hL'l ▸ hL')
    · intro r hr
      obtain ⟨L', hL', rfl⟩ := List.mem_map.mp hr
      rw [resultOf_lease_id]
      intro hid
      have hL'db : L' ∈ db.leases := ((mem_selectDue db.leases D L').mp hL').1
      have hL'l : L' = l := leaseId_inj hnodup hL'db hl hid
      exact hlsel (hL'l ▸ hL')
    · have heq : advanceLease env (selectDue db.leases D) l = l := by
        unfold advanceLease
        rw [find_advance_none env db.leases D l hnodup hl hlsel]
      exact heq ▸ List.mem_map_of_mem _ hl

/-- C3: if a configured run for date `D` succeeds for every selected lease
(charge ok and due-date update ok), then immediately re-running for the same
`D` with any configured environment selects zero leases, leaves the store
unchanged, and returns `count = 0` with an empty result list. -/
theorem autopay_rerun_empty (env env2 : Env) (db : DB) (D : Date)
    (hsb : env.supabaseConfigured = true) (hsq : env.squareConfigured = true)
    (hfetch : env.fetchError = none)
    (hnodup : (db.leases.map (fun l => l.id)).Nodup)
    (hok : ∀ L ∈ selectDue db.leases D,
      gatewayOk env L.id = true ∧ env.leaseUpdateOk L.id = true)
    (hsb2 : env2.supabaseConfigured = true)
    (hsq2 : env2.squareConfigured = true)
    (hfetch2 : env2.fetchError = none) :
    selectDue (runAutopayForDate env db (some D)).1.leases D = [] ∧
    runAutopayForDate env2 (runAutopayForDate env db (some D)).1 (some D)
      = ((runAutopayForDate env db (some D)).1, .success D 0 []) := by
  have hseln := selectDue_nodup db.leases D hnodup
  have hleases : (runAutopayForDate env db (some D)).1.leases
      = db.leases.map (advanceLease env (selectDue db.leases D)) := by
    rw [runAutopay_run env db D hsb hsq hfetch hnodup]
  have hempty : selectDue (runAutopayForDate env db (some D)).1.leases D = [] := by
    rw [hleases]
    apply selectDue_eq_nil
    intro a ha
    obtain ⟨l, hl, rfl⟩ := List.mem_map.mp ha
    by_cases hsel : l ∈ selectDue db.leases D
    · have hadv : advancesId env l = true := by
        unfold advancesId
        rw [(hok l hsel).1, (hok l hsel).2]
        rfl
      have hpred : (fun x => decide (x.id = l.id) && advancesId env x) l
          = true := by
        simp [hadv]
      have hisSome : ((selectDue db.leases D).find?
          (fun x => decide (x.id = l.id) && advancesId env x)).isSome := by
        rw [List.find?_isSome]
        exact ⟨l, hsel, hpred⟩
      obtain ⟨x, hfind⟩ := Option.isSome_iff_exists.mp hisSome
      have hxid : x.id = l.id := by
        have := List.find?_some hfind
        simp only [Bool.and_eq_true, decide_eq_true_eq] at this
        exact this.1
      have hxl : x = l :=
        leaseId_inj hseln (List.mem_of_find?_eq_some hfind) hsel hxid
      have hldue : l.next_due_date = D :=
        ((mem_selectDue db.leases D l).mp hsel).2.2.1
      have hne : (advanceLease env (selectDue db.leases D) l).next_due_date
          ≠ D := by
        unfold advanceLease
        rw [hfind]
        show utcMonthFirst x.next_due_date.year x.next_due_date.month ≠ D
        rw [hxl, hldue]
        exact utcMonthFirst_ne_self D
      intro hc
      exact hne hc.2.1
    · have heq : advanceLease env (selectDue db.leases D) l = l := by
        unfold advanceLease
        rw [find_advance_none env db.leases D l hnodup hl hsel]
      rw [heq]
      intro hc
      exact hsel ((mem_selectDue db.leases D l).mpr ⟨hl, hc.1, hc.2.1, hc.2.2⟩)
  have hmain : ∀ dbx : DB, selectDue dbx.leases D = [] →
      runAutopayForDate env2 dbx (some D) = (dbx, .success D 0 []) := by
    intro dbx hx
    have hcond : (env2.supabaseConfigured && env2.squareConfigured) = true := by
      rw [hsb2, hsq2]
      rfl
    unfold runAutopayForDate
    rw [if_pos hcond, hfetch2]
    simp only [Option.getD_some]
    rw [hx]
    rfl
  exact ⟨hempty, hmain _ hempty⟩

/-- Demo lease 1 (chargeable), due 2025-04-01. -/
def leaseOne : Lease :=
  { id := 1, tenant_id := 1, unit_id := 1, rent_cents := 10000,
    square_card_id := some 11, next_due_date := ⟨2025, 4, 1⟩, autopay := true }

/-- Demo lease 2 (chargeable; its charge is declined by `envBatch`). -/
def leaseTwo : Lease :=
  { id := 2, tenant_id := 2, unit_id := 2, rent_cents := 20000,
    square_card_id := some 12, next_due_date := ⟨2025, 4, 1⟩, autopay := true }

/-- Demo lease 3 (chargeable), due 2025-04-01. -/
def leaseThree : Lease :=
  { id := 3, tenant_id := 3, unit_id := 3, rent_cents := 30000,
    square_card_id := some 13, next_due_date := ⟨2025, 4, 1⟩, autopay := true }

/-- Demo lease 4: due but with no saved card — excluded by the query. -/
def leaseFour : Lease :=
  { id := 4, tenant_id := 4, unit_id := 4, rent_cents := 40000,
    square_card_id := none, next_due_date := ⟨2025, 4, 1⟩, autopay := true }

/-- Demo lease 5: due with a saved card but `autopay = false` — excluded. -/
def leaseFive : Lease :=
  { id := 5, tenant_id := 5, unit_id := 5, rent_cents := 50000,
    square_card_id := some 15, next_due_date := ⟨2025, 4, 1⟩, autopay := false }

/-- A five-lease store (three selectable, two excluded), empty ledger. -/
def dbBatch : DB :=
  { leases := [leaseOne, leaseTwo, leaseThree, leaseFour, leaseFive]
    payments := []
    charges := [] }

/-- A configured environment in which the charge for lease 2 is declined and
every other charge and every store write succeeds. -/
def envBatch : Env :=
  { supabaseConfigured := true
    squareConfigured := true
    sysToday := ⟨2025, 4, 1⟩
    fetchError := none
    gateway := fun i => if i = 2 then .error "card declined" else .ok (100 + i)
    payInsertOk := fun _ => true
    failInsertOk := fun _ => true
    leaseUpdateOk := fun _ => true }

/-- A configured environment in which every charge and store write succeeds. -/
def envAllOk : Env :=
  { supabaseConfigured := true
    squareConfigured := true
    sysToday := ⟨2025, 4, 1⟩
    fetchError := none
    gateway := fun i => .ok (100 + i)
    payInsertOk := fun _ => true
    failInsertOk := fun _ => true
    leaseUpdateOk := fun _ => true }

/-- Witness for C1: the spec's three-lease scenario — the 2nd charge fails,
yet the run returns exactly 3 results (2 ok, 1 failed) and appends the
failed ledger entry with the decline reason. -/
theorem autopay_partial_failure_isolation_witness :
    (runAutopayForDate envBatch dbBatch (some ⟨2025, 4, 1⟩)).2
      = .success ⟨2025, 4, 1⟩ 3
          [ { lease_id := 1, ok := true, payment_id := some 101,
              next_due_date := some ⟨2025, 5, 1⟩, error := none },
            { lease_id := 2, ok := false, payment_id := none,
              next_due_date := none, error := some "card declined" },
            { lease_id := 3, ok := true, payment_id := some 103,
              next_due_date := some ⟨2025, 5, 1⟩, error := none } ] ∧
    failedEntry leaseTwo "card declined"
      ∈ (runAutopayForDate envBatch dbBatch (some ⟨2025, 4, 1⟩)).1.payments := by
  have h := autopay_partial_failure_isolation envBatch dbBatch ⟨2025, 4, 1⟩
    rfl rfl rfl (by decide) (fun _ => rfl)
  have h2 := h.2 leaseTwo (by decide) "card declined" rfl
  exact ⟨h.1.trans (by decide), h2.2.1⟩

/-- Witness for C2 at lease 1 of the three-lease scenario. -/
theorem autopay_success_records_and_advances_witness :
    ((runAutopayForDate envBatch dbBatch (some ⟨2025, 4, 1⟩)).1.payments.drop
        dbBatch.payments.length).filter
        (fun p => decide (p.lease_id = leaseOne.id))
      = [paidEntry ⟨2025, 4, 1⟩ leaseOne 101] ∧
    resultOf envBatch leaseOne
      = { lease_id := leaseOne.id, ok := true, payment_id := some 101,
          next_due_date := some (nextFirst leaseOne.next_due_date),
          error := none } := by
  have h := autopay_success_records_and_advances envBatch dbBatch ⟨2025, 4, 1⟩
    leaseOne 101 rfl rfl rfl (by decide) (by decide) rfl rfl rfl
  exact ⟨h.1, h.2.2.2⟩

/-- Witness for C3: after a fully successful run for 2025-04-01, re-running
for the same date selects nothing and returns `count = 0`. -/
theorem autopay_rerun_empty_witness :
    selectDue (runAutopayForDate envAllOk dbBatch (some ⟨2025, 4, 1⟩)).1.leases
        ⟨2025, 4, 1⟩ = [] ∧
    runAutopayForDate envAllOk
        (runAutopayForDate envAllOk dbBatch (some ⟨2025, 4, 1⟩)).1
        (some ⟨2025, 4, 1⟩)
      = ((runAutopayForDate envAllOk dbBatch (some ⟨2025, 4, 1⟩)).1,
         .success ⟨2025, 4, 1⟩ 0 []) :=
  autopay_rerun_empty envAllOk envAllOk dbBatch ⟨2025, 4, 1⟩
    rfl rfl rfl (by decide) (by decide) rfl rfl rfl

/-- Witness for C4: lease 4 (no saved card) is never charged, gets no ledger
entry, is absent from the results, and keeps its record unchanged. -/
theorem autopay_selection_exactness_witness :
    (runAutopayForDate envBatch dbBatch (some ⟨2025, 4, 1⟩)).1.charges.drop
        dbBatch.charges.length
      = (selectDue dbBatch.leases ⟨2025, 4, 1⟩).map (fun l => l.id) ∧
    leaseFour.id ∉ (runAutopayForDate envBatch dbBatch
        (some ⟨2025, 4, 1⟩)).1.charges.drop dbBatch.charges.length ∧
    leaseFour ∈ (runAutopayForDate envBatch dbBatch (some ⟨2025, 4, 1⟩)).1.leases := by
  have h := autopay_selection_exactness envBatch dbBatch ⟨2025, 4, 1⟩
    rfl rfl rfl (by decide)
  have h4 := h.2.2.2 leaseFour (by decide) (by decide)
  exact ⟨h.1, h4.1, h4.2.2.2⟩
